import Mathlib

/-!
Verification development for the OSINT aggregation toolkit
(`src/email_toolkit/osint.py`, `src/app.py`).

The Python source is shallowly embedded: dictionaries become association
lists, JSON values become the inductive `Json` type, HTTP and subprocess
effects become explicit inputs drawn from a `World` record, and the
filesystem of the report store becomes an association list from file path to
stored document.  Exceptions that the source catches are modelled by the
error-dictionary outcomes the corresponding `except` blocks construct; the
free-text detail of exception messages is abstracted to a short tag, since no
caller inspects it.
-/

namespace Osint

/-- A JSON-like Python value: the shape of adapter outcomes, response bodies
and persisted report documents.  Python dictionaries are association lists in
insertion order. -/
inductive Json where
  | null : Json
  | bool : Bool → Json
  | num : Int → Json
  | str : String → Json
  | arr : List Json → Json
  | obj : List (String × Json) → Json

/-- Python truthiness of a value (`if results[..]:`). -/
def pyTruthy : Json → Bool
  | .null => false
  | .bool b => b
  | .num n => n != 0
  | .str s => s != ""
  | .arr l => !l.isEmpty
  | .obj l => !l.isEmpty

/-- Python dictionary read: first binding of the key, if any. -/
def dictGet {α : Type} (l : List (String × α)) (k : String) : Option α :=
  (l.find? (fun p => p.1 == k)).map (fun p => p.2)

/-- Python dictionary write: overwrite an existing binding in place, else
append a new binding (insertion order is preserved, as for `dict`). -/
def dictInsert {α : Type} (l : List (String × α)) (k : String) (v : α) :
    List (String × α) :=
  if l.any (fun p => p.1 == k) then
    l.map (fun p => if p.1 == k then (k, v) else p)
  else l ++ [(k, v)]

/-- The Python membership test `needle in r` on a JSON value: key lookup on a
dictionary, element comparison on a list, substring test on a string, and a
`TypeError` (modelled as `none`) on any other value. -/
def pyInStr (needle : String) : Json → Option Bool
  | .obj l => some (l.any (fun p => p.1 == needle))
  | .arr l => some (l.any (fun j => match j with | .str s => s == needle | _ => false))
  | .str s => some (1 < (s.splitOn needle).length)
  | _ => none

/-! ## Validator (`OSINTValidator`) -/

/-- The characters admitted inside a dot-atom local part (RFC 5322 atext).
Character codes 39, 96, 123, 124, 125 are apostrophe, backtick and the brace
and bar characters. -/
def atextSpecials : List Char :=
  ['!', '#', '$', '%', '&', '*', '+', '-', '/', '=', '?', '^', '_', '~',
   Char.ofNat 39, Char.ofNat 96, Char.ofNat 123, Char.ofNat 124, Char.ofNat 125]

/-- One atext character. -/
def atext (c : Char) : Bool :=
  c.isAlpha || c.isDigit || atextSpecials.contains c

/-- A dot-atom: one or more runs of atext characters separated by dots. -/
def dotAtomOk (l : List Char) : Bool :=
  let parts := l.splitOn '.'
  !parts.isEmpty && parts.all (fun p => !p.isEmpty && p.all atext)

/-- One domain label: nonempty, alphanumeric or hyphen, with no leading or
trailing hyphen. -/
def labelOk (p : List Char) : Bool :=
  !p.isEmpty && p.all (fun c => c.isAlpha || c.isDigit || c == '-') &&
  !(p.head? == some '-') && !(p.getLast? == some '-')

/-- A top-level label: at least two characters, all alphabetic. -/
def tldOk (p : List Char) : Bool :=
  2 ≤ p.length && p.all Char.isAlpha

/-- A domain: at least two dot-separated labels, the last one a top-level
label. -/
def domainOk (l : List Char) : Bool :=
  let parts := l.splitOn '.'
  2 ≤ parts.length && (parts.dropLast.all labelOk) &&
    tldOk (parts.getLast?.getD [])

/-- Split a character list at its last occurrence of `c`
(Python `value.rsplit(c, 1)` when `c` occurs); `none` when `c` is absent. -/
def rsplitLast (c : Char) (l : List Char) : Option (List Char × List Char) :=
  match l.reverse.splitOn c with
  | [] => none
  | [_] => none
  | d :: rest => some ((List.intercalate [c] rest).reverse, d.reverse)

/-- Modelled from the spec: `validate_email` delegates to the third-party
`validators.email` library, which is not part of this repository; the spec
describes it as a standard email syntax check.  We model the library's
dot-atom form: a local part of atext runs separated by dots (at most 64
characters), an `@`, and a dot-separated domain whose final label is
alphabetic.  The library's quoted-string local parts and IDN domain encodings
are omitted. -/
def validate_email (s : String) : Bool :=
  match rsplitLast '@' s.toList with
  | none => false
  | some (user, dom) =>
      dotAtomOk user && user.length ≤ 64 && domainOk dom

/-- A character of the class `[a-zA-Z0-9_.-]` used by `validate_username`. -/
def usernameChar (c : Char) : Bool :=
  c.isAlpha || c.isDigit || c == '_' || c == '.' || c == '-'

/-- The newline character. -/
def nlChar : Char := Char.ofNat 10

/-- Python `re.match` against the anchored pattern over the username class
(the terminator bytes of the pattern literal are corrupted in the repository
copy of `osint.py`; it is reconstructed as the anchored form the spec
describes).  With Python's `re` semantics, `$` also matches just before a
single newline at the end of the string, so a trailing newline is admitted. -/
def matchesUsernameRe (l : List Char) : Bool :=
  (!l.isEmpty && l.all usernameChar) ||
  (l.getLast? == some nlChar && !l.dropLast.isEmpty && l.dropLast.all usernameChar)

/-- `OSINTValidator.validate_username`: false for empty or shorter than three
characters, otherwise the regular-expression match above. -/
def validate_username (s : String) : Bool :=
  if s.length < 3 then false else matchesUsernameRe s.toList

/-- The denylist removed by `sanitize_input`.  Codes 34, 39, 10 and 96 are the
double quote, apostrophe, newline and backtick (the newline literal's bytes
are corrupted in the repository copy; reconstructed per the spec's denylist). -/
def dangerous_chars : List Char :=
  ['<', '>', Char.ofNat 34, Char.ofNat 39, '&', '|', ';', Char.ofNat 10, Char.ofNat 96]

/-- Whitespace stripped by Python `str.strip()` (the ASCII cases; the inputs
in scope are ASCII identifiers). -/
def isPySpace (c : Char) : Bool :=
  c == ' ' || c == '\t' || c == nlChar || c == '\r' ||
  c == Char.ofNat 11 || c == Char.ofNat 12

/-- Python `str.strip()`: drop whitespace from both ends. -/
def pyStrip (l : List Char) : List Char :=
  ((l.dropWhile isPySpace).reverse.dropWhile isPySpace).reverse

/-- One `str.replace(char, '')` pass: remove every occurrence of `c`. -/
def removeChar (c : Char) (l : List Char) : List Char :=
  l.filter (fun x => x != c)

/-- `OSINTValidator.sanitize_input`: empty input maps to the empty string;
otherwise each denylisted character is removed in turn and the result is
stripped of surrounding whitespace. -/
def sanitize_input (s : String) : String :=
  if s = "" then ""
  else String.mk (pyStrip (dangerous_chars.foldl (fun acc c => removeChar c acc) s.toList))

/-! ## Report builder (`OSINTReporter`) -/

/-- The summary block of a report. -/
structure Summary where
  risk_level : String
  breaches_found : Bool
  social_accounts : Nat
  email_reputation : String
deriving Repr, DecidableEq

/-- The initial summary values. -/
def defaultSummary : Summary :=
  { risk_level := "low", breaches_found := false,
    social_accounts := 0, email_reputation := "unknown" }

/-- `OSINTReporter._generate_summary`: the breach flag and risk level are set
only when the `haveibeenpwned` entry is truthy, is a list, and is nonempty. -/
def generate_summary (results : List (String × Json)) : Summary :=
  match dictGet results "haveibeenpwned" with
  | some v =>
      if pyTruthy v then
        match v with
        | .arr l =>
            if 0 < l.length then
              { defaultSummary with
                breaches_found := true
                risk_level := if 3 < l.length then "high" else "medium" }
            else defaultSummary
        | _ => defaultSummary
      else defaultSummary
  | none => defaultSummary

/-- The metadata block of a report. -/
structure Metadata where
  total_sources : Nat
  successful_sources : Nat
  failed_sources : Nat
deriving Repr, DecidableEq

/-- A report object as assembled by `generate_report`. -/
structure Report where
  target : String
  timestamp : String
  summary : Summary
  detailed_results : List (String × Json)
  metadata : Metadata

/-- The `'error' in r` flag for each outcome value; `none` when some value
does not support the membership test (Python raises `TypeError`). -/
def errorFlags : List Json → Option (List Bool)
  | [] => some []
  | v :: rest =>
      match pyInStr "error" v, errorFlags rest with
      | some b, some bs => some (b :: bs)
      | _, _ => none

/-- `OSINTReporter.generate_report`; `none` models the exception escaping when
a detailed result does not support the `'error' in r` test. -/
def generate_report (now target : String) (results : List (String × Json)) :
    Option Report :=
  match errorFlags (results.map (fun p => p.2)) with
  | none => none
  | some flags =>
      some { target := target
             timestamp := now
             summary := generate_summary results
             detailed_results := results
             metadata :=
               { total_sources := results.length
                 successful_sources := (flags.filter (fun b => !b)).length
                 failed_sources := (flags.filter (fun b => b)).length } }

/-- JSON rendering of a summary, as `json.dump` writes it. -/
def summaryToJson (s : Summary) : Json :=
  .obj [("risk_level", .str s.risk_level), ("breaches_found", .bool s.breaches_found),
        ("social_accounts", .num s.social_accounts),
        ("email_reputation", .str s.email_reputation)]

/-- JSON rendering of the metadata block. -/
def metadataToJson (m : Metadata) : Json :=
  .obj [("total_sources", .num m.total_sources),
        ("successful_sources", .num m.successful_sources),
        ("failed_sources", .num m.failed_sources)]

/-- JSON rendering of a full report document. -/
def reportToJson (r : Report) : Json :=
  .obj [("target", .str r.target), ("timestamp", .str r.timestamp),
        ("summary", summaryToJson r.summary),
        ("detailed_results", .obj r.detailed_results),
        ("metadata", metadataToJson r.metadata)]

/-! ## Report store -/

/-- The managed reports directory. -/
def reports_dir : String := "./reports"

/-- `os.path.join(reports_dir, filename)` for the relative filenames in scope. -/
def report_path (filename : String) : String := reports_dir ++ "/" ++ filename

/-- The target slug used in generated filenames: `@` and `.` replaced by `_`. -/
def slugify (t : String) : String :=
  String.mk (t.toList.map (fun c => if c == '@' || c == '.' then '_' else c))

/-- The generated artifact filename (`stamp` is the `%Y%m%d_%H%M%S` clock). -/
def report_filename (stamp target : String) : String :=
  "osint_report_" ++ slugify target ++ "_" ++ stamp ++ ".json"

/-- `OSINTReporter.save_report` with the default generated filename: returns
the file path written and the updated filesystem, an association list from
path to stored document. -/
def save_report (fs : List (String × Json)) (stamp : String) (report : Report) :
    String × List (String × Json) :=
  let filepath := report_path (report_filename stamp report.target)
  (filepath, dictInsert fs filepath (reportToJson report))

/-! ## HTTP source adapters (`EnhancedOSINT`) -/

/-- The API credentials read from the environment. -/
structure Env where
  hibpKey : Option String
  hunterKey : Option String
  leakcheckKey : Option String
  clearbitKey : Option String

/-- `if not api_key:` — absent or empty keys are rejected alike. -/
def keyEmpty (k : Option String) : Bool := k.getD "" == ""

/-- An upstream HTTP response: status code, raw text, parsed JSON body. -/
structure HttpResponse where
  status : Nat
  text : String
  body : Json

/-- The outcome of one outbound request: a response, a transport timeout, or
another transport exception carrying a message. -/
inductive HttpResult where
  | ok : HttpResponse → HttpResult
  | timeout : HttpResult
  | exn : String → HttpResult

/-- The validation-error outcome shared by the email adapters. -/
def validationEmailErr : Json := .obj [("error", .str "عنوان بريد إلكتروني غير صحيح")]

/-- The catch-all exception outcome (`except Exception`). -/
def unexpectedErr (m : String) : Json :=
  .obj [("error", .str ("خطأ غير متوقع: " ++ m))]

/-- The non-success-status outcome carrying only the status. -/
def apiErr (status : Nat) : Json :=
  .obj [("error", .str ("خطأ API: " ++ toString status))]

/-- The non-success-status outcome carrying the status and response text. -/
def apiErrText (status : Nat) (text : String) : Json :=
  .obj [("error", .str ("خطأ API: " ++ toString status ++ " - " ++ text))]

/-- The sort key `x.get('BreachDate', '')` of one breach record: `none` when
taking it would raise (non-mapping record, or a non-string date, which the
comparison would then reject). -/
def breachKey : Json → Option String
  | .obj l =>
      match dictGet l "BreachDate" with
      | some (.str s) => some s
      | some _ => none
      | none => some ""
  | _ => none

/-- Code-point-lexicographic comparison of character lists (Python `<` on
`str`). -/
def pyStrLtChars : List Char → List Char → Bool
  | [], [] => false
  | [], _ :: _ => true
  | _ :: _, [] => false
  | x :: xs, y :: ys =>
      if x.toNat < y.toNat then true
      else if y.toNat < x.toNat then false
      else pyStrLtChars xs ys

/-- Python `<` on strings. -/
def pyStrLt (a b : String) : Bool := pyStrLtChars a.toList b.toList

/-- Python `max(breaches, key=lambda x: x.get('BreachDate', ''))`: keeps the
first record whose key is maximal; `none` when a key raises. -/
def pyMaxByDate (l : List Json) : Option Json :=
  match l with
  | [] => none
  | x :: xs =>
      match breachKey x with
      | none => none
      | some k0 =>
          (xs.foldl (fun acc y =>
              match acc with
              | none => none
              | some best =>
                  match breachKey y with
                  | none => none
                  | some ky => some (if pyStrLt best.2 ky then (y, ky) else best))
            (some (x, k0))).map (fun p => p.1)

/-- The success outcome shape of the breach-check adapter. -/
def hibpSuccess (count : Nat) (breaches lastBreach : Json) : Json :=
  .obj [("status", .str "found"), ("breach_count", .num count),
        ("breaches", breaches), ("last_breach", lastBreach)]

/-- The 200 branch of `haveibeenpwned`: `len`, truthiness and the max-by-date
lookup applied to the parsed body; shapes on which Python raises map to the
caught-exception outcome. -/
def hibp200 (body : Json) : Json :=
  match body with
  | .arr [] => hibpSuccess 0 (.arr []) .null
  | .arr breaches =>
      match pyMaxByDate breaches with
      | some (.obj ml) =>
          match dictGet ml "Name" with
          | some nm => hibpSuccess breaches.length (.arr breaches) nm
          | none => unexpectedErr "KeyError"
      | _ => unexpectedErr "AttributeError"
  | .obj [] => hibpSuccess 0 (.obj []) .null
  | .str "" => hibpSuccess 0 (.str "") .null
  | _ => unexpectedErr "TypeError"

/-- `EnhancedOSINT.haveibeenpwned`. -/
def haveibeenpwned (env : Env) (email : String) (http : HttpResult) : Json :=
  if !validate_email email then validationEmailErr
  else if keyEmpty env.hibpKey then
    .obj [("error", .str "مفتاح API مطلوب لـ HaveIBeenPwned")]
  else
    match http with
    | .ok resp =>
        if resp.status == 200 then hibp200 resp.body
        else if resp.status == 404 then
          .obj [("status", .str "clean"), ("breach_count", .num 0),
                ("message", .str "لم يتم العثور على تسريبات")]
        else apiErrText resp.status resp.text
    | .timeout => .obj [("error", .str "انتهت مهلة الاتصال")]
    | .exn m => unexpectedErr m

/-- The normalized field set of the verifier's success payload (`data['data']`
reshaped through `.get` with defaults); a non-mapping payload raises. -/
def hunterioSuccess (d : Json) : Json :=
  match d with
  | .obj l =>
      .obj [("status", (dictGet l "status").getD (.str "unknown")),
            ("result", (dictGet l "result").getD (.str "unknown")),
            ("score", (dictGet l "score").getD (.num 0)),
            ("mx_records", (dictGet l "mx_records").getD (.bool false)),
            ("smtp_server", (dictGet l "smtp_server").getD (.bool false)),
            ("sources", (dictGet l "sources").getD (.arr []))]
  | _ => unexpectedErr "AttributeError"

/-- `EnhancedOSINT.hunterio`.  Note: there is no 404 branch — every status
other than a 200 carrying a `data` member falls through to the API-error
outcome. -/
def hunterio (env : Env) (email : String) (http : HttpResult) : Json :=
  if !validate_email email then validationEmailErr
  else if keyEmpty env.hunterKey then
    .obj [("error", .str "مفتاح API مطلوب لـ Hunter.io")]
  else
    match http with
    | .ok resp =>
        if resp.status == 200 then
          match resp.body with
          | .obj l =>
              match dictGet l "data" with
              | some d => hunterioSuccess d
              | none => apiErr resp.status
          | .arr l =>
              if l.any (fun j => match j with | .str s => s == "data" | _ => false)
              then unexpectedErr "TypeError" else apiErr resp.status
          | .str s =>
              if 1 < (s.splitOn "data").length
              then unexpectedErr "TypeError" else apiErr resp.status
          | _ => unexpectedErr "TypeError"
        else apiErr resp.status
    | .timeout => unexpectedErr "Timeout"
    | .exn m => unexpectedErr m

/-- `EnhancedOSINT.leakcheck`: a 200 returns the parsed body verbatim; any
other status is the API-error outcome (again no 404 branch). -/
def leakcheck (env : Env) (email : String) (http : HttpResult) : Json :=
  if !validate_email email then validationEmailErr
  else if keyEmpty env.leakcheckKey then
    .obj [("error", .str "مفتاح API مطلوب لـ LeakCheck")]
  else
    match http with
    | .ok resp => if resp.status == 200 then resp.body else apiErr resp.status
    | .timeout => unexpectedErr "Timeout"
    | .exn m => unexpectedErr m

/-- The reputation adapter's success payload (fields through `.get` with
defaults; a non-mapping body raises). -/
def emailrepSuccess (body : Json) : Json :=
  match body with
  | .obj l =>
      .obj [("reputation", (dictGet l "reputation").getD (.str "unknown")),
            ("suspicious", (dictGet l "suspicious").getD (.bool false)),
            ("references", (dictGet l "references").getD (.num 0)),
            ("blacklisted", (dictGet l "blacklisted").getD (.bool false)),
            ("malicious_activity", (dictGet l "malicious_activity").getD (.bool false)),
            ("credentials_leaked", (dictGet l "credentials_leaked").getD (.bool false)),
            ("first_seen", (dictGet l "first_seen").getD .null),
            ("last_seen", (dictGet l "last_seen").getD .null)]
  | _ => unexpectedErr "AttributeError"

/-- `EnhancedOSINT.emailrep`: no credential required; 404 maps to a
not-found success outcome. -/
def emailrep (email : String) (http : HttpResult) : Json :=
  if !validate_email email then validationEmailErr
  else
    match http with
    | .ok resp =>
        if resp.status == 200 then emailrepSuccess resp.body
        else if resp.status == 404 then
          .obj [("status", .str "not_found"), ("message", .str "لم يتم العثور على معلومات")]
        else apiErr resp.status
    | .timeout => unexpectedErr "Timeout"
    | .exn m => unexpectedErr m

/-- Python `str()` of a value inside an f-string (container rendering is
abbreviated; nothing downstream inspects it). -/
def pyRender : Json → String
  | .str s => s
  | .num n => toString n
  | .bool b => if b then "True" else "False"
  | .null => "None"
  | .arr _ => "<list>"
  | .obj _ => "<dict>"

/-- The chain `data.get(k1, default-empty-mapping).get(k2, d)`: `none` when the
intermediate value is not a mapping (Python raises `AttributeError`). -/
def pyGetIn (l : List (String × Json)) (k1 k2 : String) (d : Json) : Option Json :=
  match (dictGet l k1).getD (.obj []) with
  | .obj m => some ((dictGet m k2).getD d)
  | _ => none

/-- The enrichment adapter's success payload. -/
def clearbitSuccess (body : Json) : Json :=
  match body with
  | .obj l =>
      match pyGetIn l "name" "givenName" (.str ""), pyGetIn l "name" "familyName" (.str ""),
            pyGetIn l "geo" "city" (.str ""), pyGetIn l "employment" "name" (.str ""),
            pyGetIn l "employment" "title" (.str ""), pyGetIn l "linkedin" "handle" (.str ""),
            pyGetIn l "twitter" "handle" (.str ""), pyGetIn l "github" "handle" (.str "") with
      | some gn, some fn, some city, some comp, some title, some li, some tw, some gh =>
          .obj [("name", .str (String.mk (pyStrip (pyRender gn ++ " " ++ pyRender fn).toList))),
                ("location", city), ("company", comp), ("title", title),
                ("linkedin", li), ("twitter", tw), ("github", gh)]
      | _, _, _, _, _, _, _, _ => unexpectedErr "AttributeError"
  | _ => unexpectedErr "AttributeError"

/-- `EnhancedOSINT.clearbit`: 404 maps to a not-found success outcome. -/
def clearbit (env : Env) (email : String) (http : HttpResult) : Json :=
  if !validate_email email then validationEmailErr
  else if keyEmpty env.clearbitKey then
    .obj [("error", .str "مفتاح API مطلوب لـ Clearbit")]
  else
    match http with
    | .ok resp =>
        if resp.status == 200 then clearbitSuccess resp.body
        else if resp.status == 404 then
          .obj [("status", .str "not_found"), ("message", .str "لم يتم العثور على معلومات")]
        else apiErrText resp.status resp.text
    | .timeout => unexpectedErr "Timeout"
    | .exn m => unexpectedErr m

/-! ## Process source adapters -/

/-- The result of one `subprocess.run` invocation: exit code with captured
streams, a timeout, a missing executable, or another raised exception. -/
inductive ExecResult where
  | finished : Int → String → String → ExecResult
  | timedOut : ExecResult
  | notFound : ExecResult
  | raised : String → ExecResult

/-- The effect inputs of one search: credentials, one HTTP interaction per
source name, the executable existence probe, the subprocess capability, and
the interpreter-supplied part of the service object's attribute surface.
`hasattrExtra` lists the attributes the instance inherits from `object`
together with the class-metadata entries, and `extraCall` gives the value
recorded when such an attribute is called with the email: their exact set and
call behaviour are artifacts of the Python version, not of this repository's
code. -/
structure World where
  env : Env
  http : String → HttpResult
  cmdExists : String → Bool
  exec : List String → ExecResult
  hasattrExtra : List String
  extraCall : String → String → Json

/-- The body of `safe_subprocess_call` after `cmd[0]` has been taken. -/
def subprocessOutcome (w : World) (c0 : String) (cmd : List String) (tmo : Nat) : Json :=
  if !w.cmdExists c0 then .obj [("error", .str ("الأمر غير متوفر: " ++ c0))]
  else
    match w.exec cmd with
    | .finished rc out err =>
        if rc == 0 then .obj [("output", .str out), ("status", .str "success")]
        else .obj [("error", .str (if err == "" then "فشل في تنفيذ الأمر" else err)),
                   ("status", .str "failed")]
    | .timedOut =>
        .obj [("error", .str ("انتهت مهلة تنفيذ الأمر (" ++ toString tmo ++ " ثانية)"))]
    | .notFound => .obj [("error", .str ("الأمر غير موجود: " ++ c0))]
    | .raised m => .obj [("error", .str ("خطأ في التنفيذ: " ++ m))]

/-- `EnhancedOSINT.safe_subprocess_call`. -/
def safe_subprocess_call (w : World) (cmd : List String) (tmo : Nat) : Json :=
  match cmd with
  | [] => .obj [("error", .str "خطأ في التنفيذ: IndexError")]
  | c0 :: _ => subprocessOutcome w c0 cmd tmo

/-- What a process adapter decides before any effect: reject the target with a
validation outcome, or call the executable with a concrete argument vector and
timeout. -/
inductive ProcAction where
  | reject : Json → ProcAction
  | call : List String → Nat → ProcAction

/-- The validation-error outcome of the username adapters. -/
def validationUserErr : Json := .obj [("error", .str "اسم مستخدم غير صحيح")]

/-- The command `EnhancedOSINT.socialscan` submits: the validated email is
passed through unchanged (no sanitization step). -/
def socialscan_cmd (email : String) : ProcAction :=
  if !validate_email email then .reject validationEmailErr
  else .call ["socialscan", email] 120

/-- The command `EnhancedOSINT.holehe` submits: the validated email is passed
through unchanged (no sanitization step). -/
def holehe_cmd (email : String) : ProcAction :=
  if !validate_email email then .reject validationEmailErr
  else .call ["holehe", email] 120

/-- The command `EnhancedOSINT.sherlock` submits: the validated username is
sanitized before being passed. -/
def sherlock_cmd (username : String) : ProcAction :=
  if !validate_username username then .reject validationUserErr
  else .call ["sherlock", sanitize_input username, "--print-found"] 180

/-- The command `EnhancedOSINT.maigret` submits: the validated username is
sanitized before being passed. -/
def maigret_cmd (username : String) : ProcAction :=
  if !validate_username username then .reject validationUserErr
  else .call ["maigret", sanitize_input username, "--print-found"] 180

/-- Run a process adapter's decision through `safe_subprocess_call`. -/
def runProcAction (w : World) : ProcAction → Json
  | .reject e => e
  | .call cmd tmo => safe_subprocess_call w cmd tmo

/-- `EnhancedOSINT.socialscan` as an outcome. -/
def socialscan (w : World) (email : String) : Json := runProcAction w (socialscan_cmd email)

/-- `EnhancedOSINT.holehe` as an outcome. -/
def holehe (w : World) (email : String) : Json := runProcAction w (holehe_cmd email)

/-- `EnhancedOSINT.sherlock` as an outcome. -/
def sherlock (w : World) (username : String) : Json := runProcAction w (sherlock_cmd username)

/-- `EnhancedOSINT.maigret` as an outcome. -/
def maigret (w : World) (username : String) : Json := runProcAction w (maigret_cmd username)

/-! ## Aggregation (`comprehensive_search`) and the request handlers -/

/-- The two timestamp renderings taken during one search: the ISO form stored
in documents and the `%Y%m%d_%H%M%S` form used in filenames. -/
structure Clock where
  iso : String
  stamp : String

/-- The observable effects of one operation: adapter invocations in order, and
report documents persisted (path and document). -/
structure SearchTrace where
  invoked : List String
  saved : List (String × Json)

/-- The empty trace. -/
def emptyTrace : SearchTrace := { invoked := [], saved := [] }

/-- Trace concatenation. -/
def traceAppend (a b : SearchTrace) : SearchTrace :=
  { invoked := a.invoked ++ b.invoked, saved := a.saved ++ b.saved }

/-- The registry order of the email sources in `comprehensive_search`. -/
def email_source_names : List String :=
  ["haveibeenpwned", "hunterio", "leakcheck", "emailrep", "clearbit",
   "holehe", "socialscan"]

/-- The registry order of the username sources in `comprehensive_search`. -/
def username_source_names : List String := ["sherlock", "maigret"]

/-- All nine registered source adapters. -/
def source_adapter_names : List String :=
  ["haveibeenpwned", "hunterio", "leakcheck", "emailrep", "clearbit",
   "socialscan", "holehe", "sherlock", "maigret"]

/-- Dispatch one source adapter by name against the effect inputs. -/
def invokeSource (w : World) (name target : String) : Json :=
  if name == "haveibeenpwned" then haveibeenpwned w.env target (w.http name)
  else if name == "hunterio" then hunterio w.env target (w.http name)
  else if name == "leakcheck" then leakcheck w.env target (w.http name)
  else if name == "emailrep" then emailrep target (w.http name)
  else if name == "clearbit" then clearbit w.env target (w.http name)
  else if name == "socialscan" then socialscan w target
  else if name == "holehe" then holehe w target
  else if name == "sherlock" then sherlock w target
  else if name == "maigret" then maigret w target
  else Json.null

/-- The classification-error result of `comprehensive_search`. -/
def classificationErr : Json := .obj [("error", .str "نوع الهدف غير مدعوم")]

/-- The caught-exception result of `comprehensive_search` (message detail
abstracted). -/
def aggregationErr : Json := .obj [("error", .str "خطأ في البحث الشامل")]

/-- `EnhancedOSINT.comprehensive_search`: classify (in auto mode), invoke the
registry's sources for the classification, build the report, persist it, and
assemble the response; returns the response value together with the trace of
invocations and persisted artifacts. -/
def comprehensive_search (w : World) (clk : Clock) (target targetType : String) :
    Json × SearchTrace :=
  let tt? : Option String :=
    if targetType == "auto" then
      if validate_email target then some "email"
      else if validate_username target then some "username"
      else none
    else some targetType
  match tt? with
  | none => (classificationErr, emptyTrace)
  | some tt =>
      let srcNames := if tt == "email" then email_source_names
                      else if tt == "username" then username_source_names
                      else []
      let results := srcNames.map (fun n => (n, invokeSource w n target))
      match generate_report clk.iso target results with
      | none => (aggregationErr, { invoked := srcNames, saved := [] })
      | some report =>
          let filepath := report_path (report_filename clk.stamp target)
          (.obj [("target", .str target), ("target_type", .str tt),
                 ("results", .obj results), ("report", reportToJson report),
                 ("report_saved_to", .str filepath), ("timestamp", .str clk.iso)],
           { invoked := srcNames, saved := [(filepath, reportToJson report)] })

/-- The result of the report-fetch handler. -/
inductive GetResult where
  | validationError : GetResult
  | notFound : GetResult
  | ok : Json → GetResult

/-- The backslash character. -/
def bslash : Char := Char.ofNat 92

/-- The traversal guard of `api_get_report`: trips when the filename does not
end in `.json` or contains a path separator. -/
def filename_guard_fails (filename : String) : Bool :=
  !(List.isSuffixOf ".json".toList filename.toList) ||
  filename.toList.contains '/' || filename.toList.contains bslash

/-- `api_get_report` over a filesystem mapping paths to stored documents: the
guard runs before any filesystem access, then existence decides not-found, and
the stored document is returned otherwise. -/
def api_get_report (fs : List (String × Json)) (filename : String) : GetResult :=
  if filename_guard_fails filename then .validationError
  else
    match dictGet fs (report_path filename) with
    | none => .notFound
    | some d => .ok d

/-- The statically known attributes of the `EnhancedOSINT` instance: the
instance fields set in `__init__` and every method defined by the class,
`__init__` itself included.  The `hasattr` gate of `api_email_check`
additionally accepts the attributes the instance inherits from `object` and
the class-metadata entries; their exact set is an interpreter artifact and is
supplied by `World.hasattrExtra`. -/
def osint_attrs : List String :=
  ["validator", "reporter", "session", "__init__",
   "haveibeenpwned", "hunterio", "leakcheck", "emailrep", "clearbit",
   "safe_subprocess_call", "_command_exists", "socialscan", "holehe",
   "sherlock", "maigret", "async_osint_search", "_async_source_call",
   "comprehensive_search"]

/-- The `hasattr(osint, source)` gate: the statically known attributes
together with the interpreter-supplied remainder. -/
def osint_hasattr (w : World) (s : String) : Bool :=
  osint_attrs.contains s || w.hasattrExtra.contains s

/-- Calling one attribute of the service object with the email as its single
argument, as `api_email_check` does: the nine source adapters dispatch
normally; `comprehensive_search` runs a full auto search; `_command_exists`
probes the email as an executable name; `safe_subprocess_call` indexes the raw
string so `cmd[0]` is its first character; calling an `async` method yields a
coroutine object; calling a non-callable field (`validator`, `reporter`,
`session`) or an arity-mismatched method (`__init__`, `_async_source_call`)
raises a `TypeError` that the per-source handler converts to an error
outcome; calling an interpreter-inherited attribute is delegated to the
environment. -/
def invokeAttr (w : World) (clk : Clock) (name target : String) : Json × SearchTrace :=
  if source_adapter_names.contains name then
    (invokeSource w name target, { invoked := [name], saved := [] })
  else if name == "comprehensive_search" then comprehensive_search w clk target "auto"
  else if name == "_command_exists" then (.bool (w.cmdExists target), emptyTrace)
  else if name == "safe_subprocess_call" then
    (match target.toList with
     | [] => .obj [("error", .str "خطأ في التنفيذ: IndexError")]
     | c :: _ => subprocessOutcome w (String.mk [c]) [target] 60, emptyTrace)
  else if name == "async_osint_search" then
    (.str "coroutine: async_osint_search", emptyTrace)
  else if osint_attrs.contains name then
    (.obj [("error", .str ("خطأ في " ++ name ++ ": TypeError"))], emptyTrace)
  else (w.extraCall name target, emptyTrace)

/-- The result of the single-source check handler. -/
inductive CheckResult where
  | badRequest : String → CheckResult
  | ok : String → List (String × Json) → CheckResult

/-- One iteration of the request loop of `api_email_check`: a requested name
that is an attribute is invoked and recorded, any other name is skipped. -/
def email_check_step (w : World) (clk : Clock) (email : String)
    (acc : List (String × Json) × SearchTrace) (s : String) :
    List (String × Json) × SearchTrace :=
  if osint_hasattr w s then
    let r := invokeAttr w clk s email
    (dictInsert acc.1 s r.1, traceAppend acc.2 r.2)
  else acc

/-- `api_email_check` (`/api/email/check`): normalize the email, validate it,
then call every requested name that is an attribute of the service object,
collecting outcomes under the requested names; names that are not attributes
are skipped. -/
def api_email_check (w : World) (clk : Clock) (emailRaw : String)
    (sources : List String) : CheckResult × SearchTrace :=
  let email := String.mk ((pyStrip emailRaw.toList).map Char.toLower)
  if !validate_email email then
    (.badRequest "عنوان بريد إلكتروني غير صحيح", emptyTrace)
  else
    let res := sources.foldl (email_check_step w clk email)
      (([] : List (String × Json)), emptyTrace)
    (.ok email res.1, res.2)

/-! ## Helper lemmas -/

theorem foldl_removeChar_eq_filter (L : List Char) (l : List Char) :
    L.foldl (fun acc c => removeChar c acc) l
      = l.filter (fun x => !L.contains x) := by
  induction L generalizing l with
  | nil => simp
  | cons c L ih =>
      simp only [List.foldl_cons]
      rw [ih, removeChar, List.filter_filter]
      apply List.filter_congr
      intro x _
      by_cases hx : x = c <;> simp [List.contains_cons, Bool.and_comm, bne, hx]

theorem pyStrip_eq_rdropWhile (l : List Char) :
    pyStrip l = List.rdropWhile isPySpace (l.dropWhile isPySpace) := rfl

theorem pyStrip_subset (l : List Char) : pyStrip l ⊆ l := by
  rw [pyStrip_eq_rdropWhile]
  exact ( List.rdropWhile_prefix _ _).subset.trans (List.dropWhile_subset _)

theorem dropWhile_pyStrip (l : List Char) :
    (pyStrip l).dropWhile isPySpace = pyStrip l := by
  rcases hu : pyStrip l with _ | ⟨a, u⟩
  · rfl
  · obtain ⟨r, hr⟩ : pyStrip l <+: l.dropWhile isPySpace := by
      rw [pyStrip_eq_rdropWhile]; exact List.rdropWhile_prefix _ _
    rw [hu] at hr
    have hlen : 0 < (l.dropWhile isPySpace).length := by
      rw [← hr]; simp
    have hnp := List.dropWhile_get_zero_not (p := isPySpace) l hlen
    have hget : (l.dropWhile isPySpace).get ⟨0, hlen⟩ = a := by
      simp [← hr]
    rw [hget] at hnp
    simp [List.dropWhile_cons, hnp]

theorem rdropWhile_pyStrip (l : List Char) :
    List.rdropWhile isPySpace (pyStrip l) = pyStrip l := by
  rw [pyStrip_eq_rdropWhile, List.rdropWhile_idempotent]

theorem pyStrip_idem (l : List Char) : pyStrip (pyStrip l) = pyStrip l := by
  conv_lhs => rw [pyStrip_eq_rdropWhile]
  rw [dropWhile_pyStrip, rdropWhile_pyStrip]

theorem sanitize_input_toList (s : String) (h : ¬ s = "") :
    (sanitize_input s).toList
      = pyStrip (s.toList.filter (fun x => !dangerous_chars.contains x)) := by
  simp only [sanitize_input, h, if_neg, foldl_removeChar_eq_filter]
  rfl

theorem sanitize_input_no_dangerous (s : String) :
    ∀ c ∈ dangerous_chars, c ∉ (sanitize_input s).toList := by
  intro c hc hmem
  by_cases h : s = ""
  · rw [h] at hmem
    simp [sanitize_input] at hmem
  · rw [sanitize_input_toList s h] at hmem
    have hmem2 := pyStrip_subset _ hmem
    have hq := (List.mem_filter.mp hmem2).2
    simp only [List.contains, Bool.not_eq_true'] at hq
    rw [List.elem_eq_true_of_mem hc] at hq
    exact Bool.noConfusion hq

theorem sanitize_input_fixpoint_chars (s : String) (h2 : ¬ sanitize_input s = "")
    (h : ¬ s = "") :
    (sanitize_input (sanitize_input s)).toList = (sanitize_input s).toList := by
  have hfix : (sanitize_input s).toList.filter (fun x => !dangerous_chars.contains x)
      = (sanitize_input s).toList := by
    apply List.filter_eq_self.mpr
    intro a ha
    have hnd : a ∉ dangerous_chars := fun hd => sanitize_input_no_dangerous s a hd ha
    simp only [List.contains, Bool.not_eq_true', Bool.not_eq_true]
    exact (Bool.not_eq_true _).mp (by simpa [List.elem_iff] using hnd)
  rw [sanitize_input_toList _ h2, hfix, sanitize_input_toList s h, pyStrip_idem]

/-! ## Claim theorems -/

/-- C10: `sanitize_input` is idempotent — sanitizing twice equals sanitizing
once — and its output contains no character of the denylist. -/
theorem C10_sanitize_input_idempotent (s : String) :
    sanitize_input (sanitize_input s) = sanitize_input s ∧
    ∀ c ∈ dangerous_chars, c ∉ (sanitize_input s).toList := by
  refine ⟨?_, sanitize_input_no_dangerous s⟩
  by_cases h : s = ""
  · rw [h]; rfl
  · by_cases h2 : sanitize_input s = ""
    · rw [h2]; rfl
    · exact String.ext (sanitize_input_fixpoint_chars s h2 h)

/-- C7 counterexample: the three-character string of `a`, `b` and a newline is
accepted by `validate_username` although the newline is outside the character
class, because the `$` anchor of Python's `re` module also matches just
before a final newline; the claim asserts every such string is rejected. -/
theorem C7_counterexample :
    validate_username "ab\n" = true ∧ nlChar ∈ "ab\n".toList ∧
    usernameChar nlChar = false := by
  refine ⟨by decide, by decide, by decide⟩

/-- C7 (amended): `validate_username` returns true iff the string has length
at least three and decomposes into a nonempty run of class characters
optionally followed by one trailing newline (the extra case Python's `$`
anchor admits). -/
theorem C7_validate_username_characterization (s : String) :
    validate_username s = true ↔
      3 ≤ s.length ∧ ∃ core tail, s.toList = core ++ tail ∧ core ≠ [] ∧
        (∀ c ∈ core, usernameChar c = true) ∧ (tail = [] ∨ tail = [nlChar]) := by
  unfold validate_username
  by_cases hlen : s.length < 3
  · simp only [hlen, if_true]
    constructor
    · intro hf; exact absurd hf (by simp)
    · intro ⟨h3, _⟩; omega
  · simp only [hlen, if_false]
    have h3 : 3 ≤ s.length := by omega
    rw [matchesUsernameRe]
    constructor
    · intro hb
      refine ⟨h3, ?_⟩
      rw [Bool.or_eq_true] at hb
      rcases hb with h1 | h1
      · rw [Bool.and_eq_true] at h1
        obtain ⟨hne, hall⟩ := h1
        refine ⟨s.toList, [], by simp, ?_, ?_, Or.inl rfl⟩
        · simpa [List.isEmpty_iff] using hne
        · exact fun c hc => List.all_eq_true.mp hall c hc
      · rw [Bool.and_eq_true, Bool.and_eq_true] at h1
        obtain ⟨⟨hlast, hne⟩, hall⟩ := h1
        have hlast' : s.toList.getLast? = some nlChar := by
          simpa using hlast
        have hnil : s.toList ≠ [] := by
          intro hn; rw [hn] at hlast'; exact Option.noConfusion hlast'
        have hsplit : s.toList.dropLast ++ [nlChar] = s.toList := by
          have hgl := List.dropLast_concat_getLast hnil
          have : s.toList.getLast hnil = nlChar := by
            have := List.getLast?_eq_getLast s.toList hnil
            rw [this] at hlast'
            exact Option.some.inj hlast'
          rwa [this] at hgl
        refine ⟨s.toList.dropLast, [nlChar], hsplit.symm, ?_, ?_, Or.inr rfl⟩
        · simpa [List.isEmpty_iff] using hne
        · exact fun c hc => List.all_eq_true.mp hall c hc
    · rintro ⟨_, core, tail, heq, hne, hall, htail⟩
      rcases htail with rfl | rfl
      · rw [List.append_nil] at heq
        rw [heq, Bool.or_eq_true, Bool.and_eq_true]
        exact Or.inl ⟨by simpa [List.isEmpty_iff] using hne,
          List.all_eq_true.mpr (fun c hc => hall c hc)⟩
      · rw [heq, Bool.or_eq_true]
        right
        rw [Bool.and_eq_true, Bool.and_eq_true]
        refine ⟨⟨?_, ?_⟩, ?_⟩
        · simp [List.getLast?_concat]
        · simp [List.dropLast_concat, List.isEmpty_iff, hne]
        · rw [List.dropLast_concat]
          exact List.all_eq_true.mpr (fun c hc => hall c hc)

/-- A fixed email whose local part carries a denylisted character (`&` is a
legal atext character of standard email syntax). -/
def c3Email : String := "a&b@example.com"

/-- C3 counterexample: `socialscan` and `holehe` pass the validated email to
the subprocess unchanged, so for an email containing `&` the submitted
argument differs from its sanitization and carries a denylisted character;
the claim asserts the argument always equals `sanitize_input` of the target. -/
theorem C3_counterexample :
    validate_email c3Email = true ∧
    socialscan_cmd c3Email = .call ["socialscan", c3Email] 120 ∧
    holehe_cmd c3Email = .call ["holehe", c3Email] 120 ∧
    sanitize_input c3Email = "ab@example.com" ∧
    c3Email ≠ sanitize_input c3Email ∧
    '&' ∈ c3Email.toList ∧ '&' ∈ dangerous_chars := by
  refine ⟨by decide, rfl, rfl, by decide, by decide, by decide, by decide⟩

/-- C3 (amended): `sherlock` and `maigret` validate and sanitize — the
submitted argument equals `sanitize_input` of the target and carries no
denylisted character — while `socialscan` and `holehe` only validate and pass
the email through unchanged. -/
theorem C3_process_adapter_arguments :
    (∀ u, validate_username u = true →
      sherlock_cmd u = .call ["sherlock", sanitize_input u, "--print-found"] 180 ∧
      maigret_cmd u = .call ["maigret", sanitize_input u, "--print-found"] 180 ∧
      ∀ c ∈ dangerous_chars, c ∉ (sanitize_input u).toList) ∧
    (∀ e, validate_email e = true →
      socialscan_cmd e = .call ["socialscan", e] 120 ∧
      holehe_cmd e = .call ["holehe", e] 120) := by
  constructor
  · intro u hu
    refine ⟨by simp [sherlock_cmd, hu], by simp [maigret_cmd, hu],
      sanitize_input_no_dangerous u⟩
  · intro e he
    exact ⟨by simp [socialscan_cmd, he], by simp [holehe_cmd, he]⟩

/-- Witness for the amended C3 statement at concrete targets. -/
theorem C3_process_adapter_arguments_witness :
    sherlock_cmd "user_name" = .call ["sherlock", sanitize_input "user_name", "--print-found"] 180 ∧
    socialscan_cmd "user@example.com" = .call ["socialscan", "user@example.com"] 120 :=
  ⟨(C3_process_adapter_arguments.1 "user_name" (by decide)).1,
   (C3_process_adapter_arguments.2 "user@example.com" (by decide)).1⟩

/-- An effect environment where nothing is configured. -/
def wDefault : World :=
  { env := { hibpKey := none, hunterKey := none, leakcheckKey := none, clearbitKey := none },
    http := fun _ => .timeout, cmdExists := fun _ => false, exec := fun _ => .notFound,
    hasattrExtra := [], extraCall := fun _ _ => Json.null }

/-- A fixed clock. -/
def clkDefault : Clock := { iso := "2025-01-01T00:00:00", stamp := "20250101_000000" }

/-- An environment with every credential configured. -/
def envFull : Env :=
  { hibpKey := some "k", hunterKey := some "k", leakcheckKey := some "k",
    clearbitKey := some "k" }

/-- C4: a target that is neither a valid email nor a valid username makes
`comprehensive_search` in auto mode return the classification error without
invoking any adapter or persisting any report, for every effect environment. -/
theorem C4_unsupported_classification (target : String)
    (h1 : validate_email target = false) (h2 : validate_username target = false)
    (w : World) (clk : Clock) :
    comprehensive_search w clk target "auto" = (classificationErr, emptyTrace) := by
  simp [comprehensive_search, h1, h2]

/-- Witness for C4 at the spec's scenario-C target `ab`. -/
theorem C4_unsupported_classification_witness :
    comprehensive_search wDefault clkDefault "ab" "auto" = (classificationErr, emptyTrace) :=
  C4_unsupported_classification "ab" (by decide) (by decide) wDefault clkDefault

/-- One breach record as the breach-check upstream returns it. -/
def c1Breach (name date : String) : Json :=
  .obj [("Name", .str name), ("BreachDate", .str date)]

/-- Five breach records. -/
def c1Breaches : List Json :=
  [c1Breach "B1" "2019-01-01", c1Breach "B2" "2020-01-01", c1Breach "B3" "2021-01-01",
   c1Breach "B4" "2022-01-01", c1Breach "B5" "2023-01-01"]

/-- The breach-check adapter's outcome for a 200 response carrying the five
records. -/
def c1Outcome : Json :=
  haveibeenpwned envFull "user@example.com"
    (.ok { status := 200, text := "", body := .arr c1Breaches })

/-- C1: the adapter's success outcome for five breaches is a dictionary (with
`breach_count` five and no error field), but the summary heuristic only reacts
when the stored outcome is itself a bare list, so the generated summary stays
at the defaults — `breaches_found` false and `risk_level` low — where the
claim requires true and high. -/
theorem C1_summary_never_reflects_breaches :
    c1Outcome = hibpSuccess 5 (.arr c1Breaches) (.str "B5") ∧
    pyInStr "error" c1Outcome = some false ∧
    generate_summary [("haveibeenpwned", c1Outcome)] = defaultSummary ∧
    defaultSummary.breaches_found = false ∧ defaultSummary.risk_level = "low" :=
  ⟨rfl, rfl, rfl, rfl, rfl⟩

/-- A 404 upstream interaction. -/
def resp404 : HttpResult := .ok { status := 404, text := "", body := .null }

/-- C2 counterexample: the verifier and leak-check adapters have no 404
branch, so with a valid email and the credential present a 404 yields the
API-error failure outcome, where the claim requires a success; membership of
the `error` key witnesses that it is a failure. -/
theorem C2_counterexample :
    hunterio envFull "user@example.com" resp404 = apiErr 404 ∧
    pyInStr "error" (hunterio envFull "user@example.com" resp404) = some true ∧
    leakcheck envFull "user@example.com" resp404 = apiErr 404 ∧
    pyInStr "error" (leakcheck envFull "user@example.com" resp404) = some true :=
  ⟨rfl, rfl, rfl, rfl⟩

/-- C2 (amended): on a 404 with a valid email and credentials present, the
breach-check, reputation and enrichment adapters return their not-found/clean
success outcome with no error field, while the verifier and leak-check
adapters return the upstream-error failure. -/
theorem C2_http_adapters_on_404 (env : Env) (email text : String) (body : Json)
    (hv : validate_email email = true)
    (k1 : keyEmpty env.hibpKey = false) (k2 : keyEmpty env.hunterKey = false)
    (k3 : keyEmpty env.leakcheckKey = false) (k4 : keyEmpty env.clearbitKey = false) :
    (haveibeenpwned env email (.ok { status := 404, text := text, body := body })
        = .obj [("status", .str "clean"), ("breach_count", .num 0),
                ("message", .str "لم يتم العثور على تسريبات")] ∧
      pyInStr "error"
        (haveibeenpwned env email (.ok { status := 404, text := text, body := body }))
        = some false) ∧
    (emailrep email (.ok { status := 404, text := text, body := body })
        = .obj [("status", .str "not_found"), ("message", .str "لم يتم العثور على معلومات")] ∧
      pyInStr "error" (emailrep email (.ok { status := 404, text := text, body := body }))
        = some false) ∧
    (clearbit env email (.ok { status := 404, text := text, body := body })
        = .obj [("status", .str "not_found"), ("message", .str "لم يتم العثور على معلومات")] ∧
      pyInStr "error" (clearbit env email (.ok { status := 404, text := text, body := body }))
        = some false) ∧
    (hunterio env email (.ok { status := 404, text := text, body := body }) = apiErr 404 ∧
      pyInStr "error" (hunterio env email (.ok { status := 404, text := text, body := body }))
        = some true) ∧
    (leakcheck env email (.ok { status := 404, text := text, body := body }) = apiErr 404 ∧
      pyInStr "error" (leakcheck env email (.ok { status := 404, text := text, body := body }))
        = some true) := by
  refine ⟨⟨?_, ?_⟩, ⟨?_, ?_⟩, ⟨?_, ?_⟩, ⟨?_, ?_⟩, ⟨?_, ?_⟩⟩ <;>
    simp [haveibeenpwned, emailrep, clearbit, hunterio, leakcheck,
      hv, k1, k2, k3, k4, pyInStr, apiErr]

/-- Witness for the amended C2 statement at a concrete email and environment. -/
theorem C2_http_adapters_on_404_witness :
    haveibeenpwned envFull "user@example.com" resp404
      = .obj [("status", .str "clean"), ("breach_count", .num 0),
              ("message", .str "لم يتم العثور على تسريبات")] ∧
    hunterio envFull "user@example.com" resp404 = apiErr 404 :=
  ⟨(C2_http_adapters_on_404 envFull "user@example.com" "" .null (by decide)
      (by decide) (by decide) (by decide) (by decide)).1.1,
   (C2_http_adapters_on_404 envFull "user@example.com" "" .null (by decide)
      (by decide) (by decide) (by decide) (by decide)).2.2.2.1.1⟩

theorem isSuffixOf_iff_suffix {l₁ l₂ : List Char} :
    l₁.isSuffixOf l₂ = true ↔ l₁ <:+ l₂ := by
  rw [List.isSuffixOf, List.isPrefixOf_iff_prefix]
  exact List.reverse_prefix

theorem filename_guard_fails_iff (filename : String) :
    filename_guard_fails filename = true ↔
      ('/' ∈ filename.toList ∨ bslash ∈ filename.toList ∨
       ¬ ".json".toList <:+ filename.toList) := by
  rw [filename_guard_fails]
  simp only [Bool.or_eq_true, Bool.not_eq_true', List.contains, List.elem_iff,
    Bool.eq_false_iff, Ne, isSuffixOf_iff_suffix]
  tauto

/-- C6: the report-fetch guard fails with a validation error exactly when the
filename carries a path separator or lacks the `.json` suffix; when it trips,
the result is the same for every filesystem (nothing is read); past the
guard, not-found holds exactly when the artifact is absent, and otherwise the
stored document is returned. -/
theorem C6_get_report_guard (fs : List (String × Json)) (filename : String) :
    (api_get_report fs filename = .validationError ↔
       ('/' ∈ filename.toList ∨ bslash ∈ filename.toList ∨
        ¬ ".json".toList <:+ filename.toList)) ∧
    (∀ fs₂, api_get_report fs filename = .validationError →
       api_get_report fs₂ filename = .validationError) ∧
    (api_get_report fs filename = .notFound ↔
       filename_guard_fails filename = false ∧
       dictGet fs (report_path filename) = none) ∧
    (∀ d, filename_guard_fails filename = false →
       dictGet fs (report_path filename) = some d →
       api_get_report fs filename = .ok d) := by
  by_cases hg : filename_guard_fails filename = true
  · have hprop := (filename_guard_fails_iff filename).mp hg
    refine ⟨⟨fun _ => hprop, fun _ => ?_⟩, fun fs₂ _ => ?_, ⟨?_, ?_⟩, ?_⟩
    · rw [api_get_report, if_pos hg]
    · rw [api_get_report, if_pos hg]
    · intro habs
      rw [api_get_report, if_pos hg] at habs
      exact GetResult.noConfusion habs
    · rintro ⟨hgf, -⟩
      rw [hgf] at hg
      exact Bool.noConfusion hg
    · intro d hgf _
      rw [hgf] at hg
      exact Bool.noConfusion hg
  · have hnv : api_get_report fs filename ≠ .validationError := by
      intro habs
      rw [api_get_report, if_neg hg] at habs
      cases hd : dictGet fs (report_path filename) with
      | none => rw [hd] at habs; exact GetResult.noConfusion habs
      | some d => rw [hd] at habs; exact GetResult.noConfusion habs
    have hgf : filename_guard_fails filename = false := Bool.eq_false_iff.mpr hg
    have hprop : ¬ ('/' ∈ filename.toList ∨ bslash ∈ filename.toList ∨
        ¬ ".json".toList <:+ filename.toList) :=
      fun hp => hg ((filename_guard_fails_iff filename).mpr hp)
    refine ⟨⟨fun habs => absurd habs hnv, fun hp => absurd hp hprop⟩,
      fun fs₂ habs => absurd habs hnv, ⟨?_, ?_⟩, ?_⟩
    · intro habs
      rw [api_get_report, if_neg hg] at habs
      cases hd : dictGet fs (report_path filename) with
      | none => exact ⟨hgf, rfl⟩
      | some d => rw [hd] at habs; exact GetResult.noConfusion habs
    · rintro ⟨-, hd⟩
      rw [api_get_report, if_neg hg, hd]
    · intro d _ hd
      rw [api_get_report, if_neg hg, hd]

/-- Witness for C6: a clean filename with the artifact present returns the
stored document. -/
theorem C6_get_report_guard_witness :
    api_get_report [(report_path "r.json", Json.null)] "r.json" = .ok Json.null :=
  (C6_get_report_guard [(report_path "r.json", Json.null)] "r.json").2.2.2
    Json.null (by decide) rfl

/-- Whether an outcome value is a mapping carrying an `error` key. -/
def hasErrorKey : Json → Bool
  | .obj l => l.any (fun p => p.1 == "error")
  | _ => false

/-- Whether a value is a mapping. -/
def isObjJson : Json → Bool
  | .obj _ => true
  | _ => false

theorem errorFlags_length {vals : List Json} {flags : List Bool}
    (h : errorFlags vals = some flags) : flags.length = vals.length := by
  induction vals generalizing flags with
  | nil =>
      rw [errorFlags] at h
      rw [← Option.some.inj h]
      rfl
  | cons v vs ih =>
      rw [errorFlags] at h
      cases hv : pyInStr "error" v with
      | none => rw [hv] at h; exact Option.noConfusion h
      | some b =>
          rw [hv] at h
          cases hr : errorFlags vs with
          | none => rw [hr] at h; exact Option.noConfusion h
          | some bs =>
              rw [hr] at h
              rw [← Option.some.inj h]
              simp [ih hr]

theorem count_filter_bool (flags : List Bool) :
    (flags.filter (fun b => !b)).length + (flags.filter (fun b => b)).length
      = flags.length := by
  induction flags with
  | nil => rfl
  | cons b bs ih => cases b <;> simp [List.filter_cons] <;> omega

theorem errorFlags_of_objs {vals : List Json} (h : ∀ v ∈ vals, isObjJson v = true) :
    errorFlags vals = some (vals.map hasErrorKey) := by
  induction vals with
  | nil => rfl
  | cons v vs ih =>
      have hv := h v (List.mem_cons_self v vs)
      have hrest := ih (fun x hx => h x (List.mem_cons_of_mem _ hx))
      cases v <;> simp [isObjJson] at hv
      rw [errorFlags, hrest]
      rfl

/-- C9: whenever the report builder succeeds, its metadata counts partition
the outcome map — successful plus failed equals total equals the number of
entries — and on maps whose outcomes are mappings (the shape every adapter
produces), failed counts exactly the entries carrying an `error` key. -/
theorem C9_metadata_partition (now target : String) (results : List (String × Json))
    (r : Report) (h : generate_report now target results = some r) :
    r.metadata.successful_sources + r.metadata.failed_sources
        = r.metadata.total_sources ∧
    r.metadata.total_sources = results.length ∧
    ((∀ p ∈ results, isObjJson p.2 = true) →
      r.metadata.failed_sources
          = (results.filter (fun p => hasErrorKey p.2)).length ∧
      r.metadata.successful_sources
          = (results.filter (fun p => !hasErrorKey p.2)).length) := by
  rw [generate_report] at h
  cases hf : errorFlags (results.map (fun p => p.2)) with
  | none => rw [hf] at h; exact Option.noConfusion h
  | some flags =>
      rw [hf] at h
      rw [← Option.some.inj h]
      refine ⟨?_, rfl, ?_⟩
      · show (List.filter (fun b => !b) flags).length
            + (List.filter (fun b => b) flags).length = results.length
        rw [count_filter_bool flags, errorFlags_length hf, List.length_map]
      intro hobj
      have hflags : flags = (results.map (fun p => p.2)).map hasErrorKey := by
        have hof : errorFlags (results.map (fun p => p.2))
            = some ((results.map (fun p => p.2)).map hasErrorKey) :=
          errorFlags_of_objs (fun v hv => by
            obtain ⟨p, hp, hpv⟩ := List.mem_map.mp hv
            rw [← hpv]; exact hobj p hp)
        rw [hf] at hof
        exact (Option.some.inj hof)
      constructor
      · show (flags.filter (fun b => b)).length = _
        rw [hflags, List.map_map, List.filter_map, List.length_map]
        exact congrArg List.length (List.filter_congr (fun x _ => rfl))
      · show (flags.filter (fun b => !b)).length = _
        rw [hflags, List.map_map, List.filter_map, List.length_map]
        exact congrArg List.length (List.filter_congr (fun x _ => rfl))

/-- A concrete two-source outcome map: one failure, one success. -/
def c9Results : List (String × Json) :=
  [("hunterio", .obj [("error", .str "خطأ API: 500")]),
   ("emailrep", .obj [("reputation", .str "high")])]

/-- The report the builder produces on `c9Results`. -/
def c9Report : Report :=
  { target := "user@x.co", timestamp := "t", summary := defaultSummary,
    detailed_results := c9Results,
    metadata := { total_sources := 2, successful_sources := 1, failed_sources := 1 } }

/-- Witness for C9 on a concrete outcome map. -/
theorem C9_metadata_partition_witness :
    c9Report.metadata.successful_sources + c9Report.metadata.failed_sources
        = c9Report.metadata.total_sources ∧
    c9Report.metadata.total_sources = c9Results.length := by
  have h := C9_metadata_partition "t" "user@x.co" c9Results c9Report rfl
  exact ⟨h.1, h.2.1⟩

theorem string_toList_eq_data (s : String) : s.toList = s.data := rfl

theorem dictGet_dictInsert_self {α : Type} (l : List (String × α)) (k : String) (v : α) :
    dictGet (dictInsert l k v) k = some v := by
  rw [dictInsert]
  by_cases h : l.any (fun p => p.1 == k) = true
  · rw [if_pos h, dictGet, List.find?_map]
    have hpred : ((fun p : String × α => p.1 == k) ∘
        (fun p : String × α => if p.1 == k then (k, v) else p)) = (fun p => p.1 == k) := by
      funext p
      by_cases hp : (p.1 == k) = true <;> simp [Function.comp, hp]
    rw [hpred]
    obtain ⟨q, hq, hqk⟩ := List.any_eq_true.mp h
    cases hfind : l.find? (fun p => p.1 == k) with
    | none =>
        rw [List.find?_eq_none] at hfind
        exact absurd hqk (hfind q hq)
    | some q2 =>
        have hq2 : q2.1 = k := by
          have hps := List.find?_some hfind
          simpa using hps
        simp [hq2]
  · rw [if_neg h, dictGet, List.find?_append]
    have hnone : l.find? (fun p => p.1 == k) = none := by
      rw [List.find?_eq_none]
      intro x hx hpx
      exact h (List.any_eq_true.mpr ⟨x, hx, hpx⟩)
    rw [hnone]
    simp

theorem mem_slugify {c : Char} {t : String} (h : c ∈ (slugify t).toList) :
    c = '_' ∨ c ∈ t.toList := by
  rw [slugify] at h
  have h2 : c ∈ t.toList.map (fun c => if c == '@' || c == '.' then '_' else c) := h
  obtain ⟨x, hx, hfx⟩ := List.mem_map.mp h2
  by_cases hcond : (x == '@' || x == '.') = true
  · rw [if_pos hcond] at hfx
    exact Or.inl hfx.symm
  · rw [if_neg hcond] at hfx
    exact Or.inr (hfx ▸ hx)

theorem report_filename_toList (stamp target : String) :
    (report_filename stamp target).toList
      = "osint_report_".toList ++ (slugify target).toList ++ "_".toList
        ++ stamp.toList ++ ".json".toList := by
  simp [report_filename, string_toList_eq_data, String.data_append]

theorem report_filename_guard_ok (stamp target : String)
    (h1 : '/' ∉ target.toList) (h2 : bslash ∉ target.toList)
    (h3 : '/' ∉ stamp.toList) (h4 : bslash ∉ stamp.toList) :
    filename_guard_fails (report_filename stamp target) = false := by
  apply Bool.eq_false_iff.mpr
  intro hg
  rw [filename_guard_fails_iff] at hg
  have hsep : ∀ c : Char, c ∈ (report_filename stamp target).toList →
      c ∉ target.toList → c ∉ stamp.toList → c ≠ '_' →
      c ∈ "osint_report_".toList ∨ c ∈ "_".toList ∨ c ∈ ".json".toList := by
    intro c hc hct hcs hcu
    rw [report_filename_toList] at hc
    simp only [List.mem_append] at hc
    rcases hc with ((((hc | hc) | hc) | hc) | hc)
    · exact Or.inl hc
    · rcases mem_slugify hc with hc2 | hc2
      · exact absurd hc2 hcu
      · exact absurd hc2 hct
    · exact Or.inr (Or.inl hc)
    · exact absurd hc hcs
    · exact Or.inr (Or.inr hc)
  rcases hg with hc | hc | hsuf
  · rcases hsep '/' hc h1 h3 (by decide) with hx | hx | hx <;> revert hx <;> decide
  · rcases hsep bslash hc h2 h4 (by decide) with hx | hx | hx <;> revert hx <;> decide
  · apply hsuf
    refine ⟨"osint_report_".toList ++ (slugify target).toList ++ "_".toList
      ++ stamp.toList, ?_⟩
    rw [report_filename_toList]

/-- A report whose target carries a path separator (a `/` is a legal atext
character of standard email syntax, so such targets reach the store). -/
def c8BadReport : Report :=
  { target := "a/b@x.co", timestamp := "t", summary := defaultSummary,
    detailed_results := [], metadata := ⟨0, 0, 0⟩ }

/-- C8 counterexample: saving a report whose target contains `/` produces a
filename the fetch guard rejects, so fetching it back yields the validation
error instead of the stored document — the round-trip fails. -/
theorem C8_counterexample :
    validate_email c8BadReport.target = true ∧
    api_get_report (save_report [] "20250101_000000" c8BadReport).2
        (report_filename "20250101_000000" c8BadReport.target) = .validationError ∧
    api_get_report (save_report [] "20250101_000000" c8BadReport).2
        (report_filename "20250101_000000" c8BadReport.target)
      ≠ .ok (reportToJson c8BadReport) := by
  refine ⟨by decide, rfl, fun h => ?_⟩
  rw [show api_get_report (save_report [] "20250101_000000" c8BadReport).2
      (report_filename "20250101_000000" c8BadReport.target)
      = GetResult.validationError from rfl] at h
  exact GetResult.noConfusion h

/-- C8 (amended): for every report whose target contains no path separator
(and a separator-free timestamp), fetching by the generated artifact filename
immediately after saving returns exactly the stored document. -/
theorem C8_save_get_roundtrip (fs : List (String × Json)) (stamp : String)
    (report : Report)
    (h1 : '/' ∉ report.target.toList) (h2 : bslash ∉ report.target.toList)
    (h3 : '/' ∉ stamp.toList) (h4 : bslash ∉ stamp.toList) :
    api_get_report (save_report fs stamp report).2
        (report_filename stamp report.target)
      = .ok (reportToJson report) := by
  rw [api_get_report, if_neg (by
    rw [report_filename_guard_ok stamp report.target h1 h2 h3 h4]
    exact Bool.false_ne_true)]
  rw [save_report]
  rw [dictGet_dictInsert_self]

/-- A separator-free report. -/
def c8GoodReport : Report :=
  { target := "user@x.co", timestamp := "t", summary := defaultSummary,
    detailed_results := [], metadata := ⟨0, 0, 0⟩ }

/-- Witness for the amended C8 statement on a concrete report. -/
theorem C8_save_get_roundtrip_witness :
    api_get_report (save_report [] "20250101_000000" c8GoodReport).2
        (report_filename "20250101_000000" c8GoodReport.target)
      = .ok (reportToJson c8GoodReport) :=
  C8_save_get_roundtrip [] "20250101_000000" c8GoodReport
    (by decide) (by decide) (by decide) (by decide)

theorem hasKey_dictInsert {α : Type} (l : List (String × α)) (k s : String) (v : α) :
    ((dictInsert l k v).any (fun p => p.1 == s)) = true ↔
      ((l.any (fun p => p.1 == s)) = true ∨ s = k) := by
  rw [dictInsert]
  by_cases h : l.any (fun p => p.1 == k) = true
  · rw [if_pos h]
    constructor
    · intro ha
      obtain ⟨p, hp, hps⟩ := List.any_eq_true.mp ha
      obtain ⟨q, hq, hfq⟩ := List.mem_map.mp hp
      by_cases hqk : (q.1 == k) = true
      · rw [if_pos hqk] at hfq
        right
        rw [← hfq] at hps
        have hks : k = s := by simpa using hps
        exact hks.symm
      · rw [if_neg hqk] at hfq
        exact Or.inl (List.any_eq_true.mpr ⟨q, hq, by rw [hfq]; exact hps⟩)
    · intro h2
      apply List.any_eq_true.mpr
      rcases h2 with ha | rfl
      · obtain ⟨q, hq, hqs⟩ := List.any_eq_true.mp ha
        by_cases hqk : (q.1 == k) = true
        · refine ⟨(k, v), List.mem_map.mpr ⟨q, hq, by rw [if_pos hqk]⟩, ?_⟩
          have e1 : q.1 = k := by simpa using hqk
          have e2 : q.1 = s := by simpa using hqs
          simp [← e1, e2]
        · exact ⟨q, List.mem_map.mpr ⟨q, hq, by rw [if_neg hqk]⟩, hqs⟩
      · obtain ⟨q, hq, hqk⟩ := List.any_eq_true.mp h
        exact ⟨(s, v), List.mem_map.mpr ⟨q, hq, by rw [if_pos hqk]⟩, by simp⟩
  · rw [if_neg h, List.any_append]
    simp only [List.any_cons, List.any_nil, Bool.or_false]
    rw [Bool.or_eq_true]
    constructor
    · rintro (hb | hb)
      · exact Or.inl hb
      · right
        have hks : k = s := by simpa using hb
        exact hks.symm
    · rintro (hb | rfl)
      · exact Or.inl hb
      · right; simp

theorem mem_dictInsert {α : Type} {l : List (String × α)} {k s : String} {v x : α}
    (h : (s, x) ∈ dictInsert l k v) : (s, x) ∈ l ∨ (s = k ∧ x = v) := by
  rw [dictInsert] at h
  by_cases hk : l.any (fun p => p.1 == k) = true
  · rw [if_pos hk] at h
    obtain ⟨q, hq, hfq⟩ := List.mem_map.mp h
    by_cases hqk : (q.1 == k) = true
    · rw [if_pos hqk] at hfq
      exact Or.inr ⟨(congrArg Prod.fst hfq).symm, (congrArg Prod.snd hfq).symm⟩
    · rw [if_neg hqk] at hfq
      exact Or.inl (hfq ▸ hq)
  · rw [if_neg hk] at h
    rcases List.mem_append.mp h with h1 | h1
    · exact Or.inl h1
    · right
      simp only [List.mem_singleton, Prod.mk.injEq] at h1
      exact h1

theorem email_check_fold_spec (w : World) (clk : Clock) (email : String) :
    ∀ (sources : List String) (acc : List (String × Json) × SearchTrace),
      (∀ s x, (s, x) ∈ acc.1 → x = (invokeAttr w clk s email).1) →
      (∀ s x, (s, x) ∈ (sources.foldl (email_check_step w clk email) acc).1 →
          x = (invokeAttr w clk s email).1) ∧
      (∀ s, ((sources.foldl (email_check_step w clk email) acc).1.any
            (fun p => p.1 == s)) = true ↔
          ((acc.1.any (fun p => p.1 == s)) = true ∨
            (s ∈ sources ∧ osint_hasattr w s = true))) := by
  intro sources
  induction sources with
  | nil =>
      intro acc hacc
      exact ⟨hacc, fun s => by simp⟩
  | cons a rest ih =>
      intro acc hacc
      rw [List.foldl_cons]
      by_cases ha : osint_hasattr w a = true
      · have hstep : email_check_step w clk email acc a
            = (dictInsert acc.1 a (invokeAttr w clk a email).1,
               traceAppend acc.2 (invokeAttr w clk a email).2) := by
          rw [email_check_step, if_pos ha]
        have hacc' : ∀ s x, (s, x) ∈ (email_check_step w clk email acc a).1 →
            x = (invokeAttr w clk s email).1 := by
          intro s x hx
          rw [hstep] at hx
          rcases mem_dictInsert hx with h1 | ⟨rfl, rfl⟩
          · exact hacc s x h1
          · rfl
        obtain ⟨hv, hk⟩ := ih (email_check_step w clk email acc a) hacc'
        refine ⟨hv, fun s => ?_⟩
        rw [hk s, hstep]
        rw [show ((dictInsert acc.1 a (invokeAttr w clk a email).1,
            traceAppend acc.2 (invokeAttr w clk a email).2).1) =
            dictInsert acc.1 a (invokeAttr w clk a email).1 from rfl]
        rw [hasKey_dictInsert]
        constructor
        · rintro ((hx | rfl) | ⟨hr, hat⟩)
          · exact Or.inl hx
          · exact Or.inr ⟨List.mem_cons_self _ _, ha⟩
          · exact Or.inr ⟨List.mem_cons_of_mem _ hr, hat⟩
        · rintro (hx | ⟨hmem, hat⟩)
          · exact Or.inl (Or.inl hx)
          · rcases List.mem_cons.mp hmem with rfl | hr
            · exact Or.inl (Or.inr rfl)
            · exact Or.inr ⟨hr, hat⟩
      · have hstep : email_check_step w clk email acc a = acc := by
          rw [email_check_step, if_neg ha]
        rw [hstep]
        obtain ⟨hv, hk⟩ := ih acc hacc
        refine ⟨hv, fun s => ?_⟩
        rw [hk s]
        constructor
        · rintro (hx | ⟨hr, hat⟩)
          · exact Or.inl hx
          · exact Or.inr ⟨List.mem_cons_of_mem _ hr, hat⟩
        · rintro (hx | ⟨hmem, hat⟩)
          · exact Or.inl hx
          · rcases List.mem_cons.mp hmem with rfl | hr
            · exact absurd hat ha
            · exact Or.inr ⟨hr, hat⟩

/-- The effect environment used in the single-source check scenarios. -/
def c5World : World :=
  { env := envFull, http := fun _ => resp404, cmdExists := fun _ => false,
    exec := fun _ => .notFound, hasattrExtra := [],
    extraCall := fun _ _ => Json.null }

/-- The email used in the single-source check scenarios. -/
def c5Email : String := "user@example.com"

/-- C5 counterexample: the `hasattr` gate accepts every attribute of the
service object, not only source adapters — requesting `validator` or
`__init__` produces an error-outcome entry in the result map (the claim
requires both to be absent), and requesting `comprehensive_search` runs a
full search, invoking all seven email adapters and persisting a report (the
claim requires nothing to be invoked). -/
theorem C5_counterexample :
    (api_email_check c5World clkDefault c5Email
        ["haveibeenpwned", "validator", "__init__"]).1
      = .ok c5Email
          [("haveibeenpwned",
             .obj [("status", .str "clean"), ("breach_count", .num 0),
                   ("message", .str "لم يتم العثور على تسريبات")]),
           ("validator", .obj [("error", .str "خطأ في validator: TypeError")]),
           ("__init__", .obj [("error", .str "خطأ في __init__: TypeError")])] ∧
    source_adapter_names.contains "validator" = false ∧
    source_adapter_names.contains "__init__" = false ∧
    (api_email_check c5World clkDefault c5Email ["comprehensive_search"]).2.invoked
      = email_source_names ∧
    ((api_email_check c5World clkDefault c5Email ["comprehensive_search"]).2.saved).length
      = 1 :=
  ⟨rfl, by decide, by decide, rfl, rfl⟩

/-- C5 (amended): the result map of the single-source check contains exactly
the requested names accepted by the `hasattr` gate — every attribute of the
service object, i.e. the statically known fields and methods (`__init__` and
`comprehensive_search` included) together with the interpreter-supplied
remainder, a strictly larger set than the source-adapter registry — each
mapped to the value of invoking that attribute; only names that are not
attributes are silently dropped. -/
theorem C5_email_check_requested_names (w : World) (clk : Clock) (emailRaw : String)
    (sources : List String) (email : String) (results : List (String × Json))
    (tr : SearchTrace)
    (h : api_email_check w clk emailRaw sources = (.ok email results, tr)) :
    (∀ s, (results.any (fun p => p.1 == s)) = true ↔
        (s ∈ sources ∧ osint_hasattr w s = true)) ∧
    (∀ s x, (s, x) ∈ results → x = (invokeAttr w clk s email).1) := by
  rw [api_email_check] at h
  by_cases hv : validate_email (String.mk ((pyStrip emailRaw.toList).map Char.toLower)) = true
  · rw [hv] at h
    simp only [Bool.not_true] at h
    rw [if_neg Bool.false_ne_true] at h
    have h1 := congrArg Prod.fst h
    simp only at h1
    rw [CheckResult.ok.injEq] at h1
    obtain ⟨hemail, hres⟩ := h1
    subst hemail
    subst hres
    obtain ⟨hvls, hkeys⟩ := email_check_fold_spec w clk
      (String.mk ((pyStrip emailRaw.toList).map Char.toLower)) sources
      (([] : List (String × Json)), emptyTrace)
      (by intro s x hx; simp at hx)
    exact ⟨fun s => by simpa using hkeys s, hvls⟩
  · have hvf : validate_email (String.mk ((pyStrip emailRaw.toList).map Char.toLower))
        = false := Bool.eq_false_iff.mpr hv
    rw [hvf] at h
    simp only [Bool.not_false, if_true] at h
    have h1 := congrArg Prod.fst h
    simp only at h1
    exact CheckResult.noConfusion h1

/-- Witness for the amended C5 statement: `validator` is a requested name the
`hasattr` gate accepts. -/
theorem C5_email_check_requested_names_witness :
    "validator" ∈ ["validator"] ∧ osint_hasattr c5World "validator" = true :=
  (C5_email_check_requested_names c5World clkDefault c5Email ["validator"] c5Email
      [("validator", .obj [("error", .str "خطأ في validator: TypeError")])]
      emptyTrace rfl).1 "validator" |>.mp (by decide)

end Osint
